import Mathlib

/-!
Shallow embedding of the cospace-xr real-time sync layer:
the socket server (server/index.js) and the client systems
(networking/WebSocketClient.ts, systems/NetworkSystem.ts,
systems/TaskBoardSystem.ts, systems/AvatarSystem.ts).
-/

namespace CoSpace

/-! ### String-keyed maps (JS `Map` with string keys, insertion order preserved) -/

abbrev Smap (α : Type) := List (String × α)

def mapLookup {α : Type} : Smap α → String → Option α
  | [], _ => none
  | (k', v) :: rest, k => if k' = k then some v else mapLookup rest k

def mapInsert {α : Type} : Smap α → String → α → Smap α
  | [], k, v => [(k, v)]
  | (k', v') :: rest, k, v =>
      if k' = k then (k, v) :: rest else (k', v') :: mapInsert rest k v

/-- `Map.delete`: keys are unique by construction, so removing every
    entry with the key is the same as removing the one entry. -/
def mapErase {α : Type} : Smap α → String → Smap α
  | [], _ => []
  | (k', v) :: rest, k =>
      if k' = k then mapErase rest k else (k', v) :: mapErase rest k

/-! ### Server data model (server/index.js) -/

/-- `users.set(socket.id, { userId, roomId, color })` -/
structure UserInfo where
  userId : String
  roomId : String
  color : List ℚ
deriving DecidableEq, Repr

/-- An untyped JS payload object, as a field/value list.  For lookups the
    later binding wins, so the object literal `\x7buserId: u, ...data\x7d` is
    `("userId", u) :: data`. -/
abbrev Obj := List (String × String)

inductive ClientMsg where
  | joinRoom (roomId userId : String) (color : List ℚ)
  | updateTransform (payload : Obj)
  | updateGesture (payload : Obj)
  | taskUpdate (payload : Obj)
  | voiceComment (payload : Obj)
  | disconnect
deriving DecidableEq, Repr

inductive ServerMsg where
  | roomFull
  | roomJoined (existingUsers : List (Option UserInfo))
  | userJoined (userId : String) (color : List ℚ)
  | userLeft (userId : String)
  | remoteTransform (obj : Obj)
  | remoteGesture (obj : Obj)
  | taskChanged (obj : Obj)
  | newComment (obj : Obj)
deriving DecidableEq, Repr

/-- One `emit`, with its recipient socket ids resolved at emission time. -/
structure Emit where
  recipients : List String
  msg : ServerMsg
deriving DecidableEq, Repr

/-- `rooms` / `users` are the two global maps; `adapter` is the socket.io
    room membership created by `socket.join` and consulted by
    `socket.to(roomId)` (an empty member list is observationally the same
    as an absent adapter room). -/
structure ServerState where
  rooms : Smap (List String)
  users : Smap UserInfo
  adapter : Smap (List String)
deriving DecidableEq, Repr

def initServer : ServerState := ⟨[], [], []⟩

/-- `socket.join(roomId)`: idempotent add. -/
def adapterJoin (a : Smap (List String)) (roomId sid : String) : Smap (List String) :=
  match mapLookup a roomId with
  | none => mapInsert a roomId [sid]
  | some l => mapInsert a roomId (if sid ∈ l then l else l ++ [sid])

/-- `socket.to(roomId).emit`: every adapter member of the room except the sender. -/
def roomPeers (st : ServerState) (roomId sid : String) : List String :=
  ((mapLookup st.adapter roomId).getD []).filter (fun i => i ≠ sid)

/-- The `join-room` handler. -/
def handleJoinRoom (st : ServerState) (sid roomId userId : String)
    (color : List ℚ) : ServerState × List Emit :=
  let st1 := if (mapLookup st.rooms roomId).isSome then st
             else { st with rooms := mapInsert st.rooms roomId [] }
  let room := (mapLookup st1.rooms roomId).getD []
  if 4 ≤ room.length then
    (st1, [⟨[sid], .roomFull⟩])
  else
    let room2 := if sid ∈ room then room else room ++ [sid]
    let st2 : ServerState :=
      { rooms := mapInsert st1.rooms roomId room2
        users := mapInsert st1.users sid ⟨userId, roomId, color⟩
        adapter := adapterJoin st1.adapter roomId sid }
    let existingUsers :=
      (room2.filter (fun i => i ≠ sid)).map (fun i => mapLookup st2.users i)
    (st2, [⟨roomPeers st2 roomId sid, .userJoined userId color⟩,
           ⟨[sid], .roomJoined existingUsers⟩])

/-- socket.io removes a disconnected socket from every adapter room before
    the `disconnect` handler body runs. -/
def adapterDisconnect (a : Smap (List String)) (sid : String) : Smap (List String) :=
  a.map (fun p => (p.1, p.2.filter (fun i => i ≠ sid)))

/-- The `disconnect` handler. -/
def handleDisconnect (st : ServerState) (sid : String) : ServerState × List Emit :=
  let st0 : ServerState := { st with adapter := adapterDisconnect st.adapter sid }
  match mapLookup st0.users sid with
  | none => (st0, [])
  | some u =>
    match mapLookup st0.rooms u.roomId with
    | none => ({ st0 with users := mapErase st0.users sid }, [])
    | some room =>
      let room1 := room.filter (fun i => i ≠ sid)
      let emits := [⟨roomPeers st0 u.roomId sid, .userLeft u.userId⟩]
      let rooms2 := if room1 = [] then mapErase st0.rooms u.roomId
                    else mapInsert st0.rooms u.roomId room1
      (⟨rooms2, mapErase st0.users sid, st0.adapter⟩, emits)

/-- One inbound socket event, dispatched exactly as in server/index.js. -/
def serverStep (st : ServerState) (sid : String) : ClientMsg → ServerState × List Emit
  | .joinRoom roomId userId color => handleJoinRoom st sid roomId userId color
  | .updateTransform p =>
      match mapLookup st.users sid with
      | none => (st, [])
      | some u =>
          (st, [⟨roomPeers st u.roomId sid, .remoteTransform (("userId", u.userId) :: p)⟩])
  | .updateGesture p =>
      match mapLookup st.users sid with
      | none => (st, [])
      | some u =>
          (st, [⟨roomPeers st u.roomId sid, .remoteGesture (("userId", u.userId) :: p)⟩])
  | .taskUpdate p =>
      match mapLookup st.users sid with
      | none => (st, [])
      | some u => (st, [⟨roomPeers st u.roomId sid, .taskChanged p⟩])
  | .voiceComment p =>
      match mapLookup st.users sid with
      | none => (st, [])
      | some u =>
          (st, [⟨roomPeers st u.roomId sid, .newComment (("userId", u.userId) :: p)⟩])
  | .disconnect => handleDisconnect st sid

/-- Process a whole trace of (socketId, message) events. -/
def serverRun (st : ServerState) : List (String × ClientMsg) → ServerState × List Emit
  | [] => (st, [])
  | (sid, m) :: rest =>
    let r1 := serverStep st sid m
    let r2 := serverRun r1.1 rest
    (r2.1, r1.2 ++ r2.2)

/-! ### WebSocketClient connect cycle (networking/WebSocketClient.ts) -/

inductive ConnResult where
  | ok
  | roomFullErr
  | connectionError
deriving DecidableEq, Repr

/-- Options passed to `io(serverUrl, ...)`. -/
structure SocketOptions where
  reconnection : Bool
  reconnectionDelay : Nat
  reconnectionAttempts : Nat
deriving DecidableEq, Repr

def maxReconnectAttempts : Nat := 5

def wsSocketOptions : SocketOptions := ⟨true, 1000, maxReconnectAttempts⟩

/-- The `connect` promise state: the reconnect counter plus how the
    promise has settled (a promise settles at most once). -/
structure WsClientState where
  reconnectAttempts : Nat
  settled : Option ConnResult
deriving DecidableEq, Repr

inductive SocketEvent where
  | connected
  | roomJoinedMsg
  | roomFullMsg
  | connectError
  | disconnected
deriving DecidableEq, Repr

def settleOnce (s : Option ConnResult) (r : ConnResult) : Option ConnResult :=
  match s with
  | some r0 => some r0
  | none => some r

/-- The socket event handlers registered inside `connect`. -/
def wsHandleEvent (s : WsClientState) : SocketEvent → WsClientState
  | .connected => { s with reconnectAttempts := 0 }
  | .roomJoinedMsg => { s with settled := settleOnce s.settled .ok }
  | .roomFullMsg => { s with settled := settleOnce s.settled .roomFullErr }
  | .connectError =>
      let n := s.reconnectAttempts + 1
      { reconnectAttempts := n
        settled := if maxReconnectAttempts ≤ n then settleOnce s.settled .connectionError
                   else s.settled }
  | .disconnected => s

/-- Run one `connect` call (fresh socket, counter 0, pending promise)
    against a sequence of socket events. -/
def wsConnectRun (evs : List SocketEvent) : WsClientState :=
  evs.foldl wsHandleEvent ⟨0, none⟩

/-- `NetworkSystem.connectToServer`: a failed `connect` is caught and
    `setTimeout(() => this.connectToServer(), 5000)` schedules a whole new
    connection attempt.  Returns the delay of the scheduled retry, if any. -/
def connectToServerRetryDelayMs (result : Option ConnResult) : Option Nat :=
  match result with
  | some .ok => none
  | some .roomFullErr => some 5000
  | some .connectionError => some 5000
  | none => none

/-! ### NetworkSystem.update transform/gesture emission (systems/NetworkSystem.ts) -/

/-- The time scale is left as a parameter so concrete runs can use exact
    integer-scaled clocks; the code's clock is a JS number of seconds. -/
structure NetSyncState (K : Type) where
  lastSyncTime : K
deriving DecidableEq, Repr

/-- `syncRate` config default: 0.05 s (20 Hz). -/
def defaultSyncRate : ℚ := mkRat 1 20

/-- One `update(delta, time)` tick: returns the new state and whether a
    transform / gesture message was emitted on this tick. -/
def netUpdate {K : Type} [LinearOrderedRing K] (syncRate : K) (connected : Bool)
    (s : NetSyncState K) (time : K) : NetSyncState K × Bool × Bool :=
  if connected then
    if syncRate ≤ time - s.lastSyncTime then (⟨time⟩, true, true)
    else (s, false, true)
  else (s, false, false)

/-- Times of the ticks on which a transform update was emitted. -/
def transformTimes {K : Type} [LinearOrderedRing K] (syncRate : K)
    (s : NetSyncState K) : List (K × Bool) → List K
  | [] => []
  | (t, c) :: rest =>
    let r := netUpdate syncRate c s t
    if r.2.1 then t :: transformTimes syncRate r.1 rest
    else transformTimes syncRate r.1 rest

/-- Times of the ticks on which a gesture update was emitted. -/
def gestureTimes {K : Type} [LinearOrderedRing K] (syncRate : K)
    (s : NetSyncState K) : List (K × Bool) → List K
  | [] => []
  | (t, c) :: rest =>
    let r := netUpdate syncRate c s t
    if r.2.2 then t :: gestureTimes syncRate r.1 rest
    else gestureTimes syncRate r.1 rest

/-- 90 Hz for one second, connected throughout, on an integer clock whose
    unit is 1/180 s: tick k is at time 2k, and the default 50 ms sync
    interval is exactly 9 units. -/
def ticks90 : List (ℤ × Bool) :=
  (List.range 90).map (fun k => (2 * ((k : ℤ) + 1), true))

/-- 50 ms expressed in the 1/180-second clock units of `ticks90`. -/
def syncRate180 : ℤ := 9

/-! ### Task board replica (systems/TaskBoardSystem.ts) -/

structure CommentRec where
  userId : String
  text : String
  timestamp : Int
deriving DecidableEq, Repr

/-- The TaskCard component fields relevant to synchronization. -/
structure TaskRecord where
  taskId : String
  column : String
  position : Int
  text : String
  priority : String
  comments : List CommentRec
  assignedTo : String
deriving DecidableEq, Repr

/-- A `task-changed` payload: `taskId` plus the optional fields. -/
structure TaskUpdateMsg where
  taskId : String
  column : Option String
  position : Option Int
  text : Option String
  priority : Option String
deriving DecidableEq, Repr

/-- Field application in `processNetworkUpdates`: the string fields are
    guarded by JS truthiness (`if (update.column)` is false for the empty
    string), while `position` is guarded by `!== undefined`. -/
def applyTaskUpdate (t : TaskRecord) (u : TaskUpdateMsg) : TaskRecord :=
  let t1 := match u.column with
    | some c => if c.isEmpty then t else { t with column := c }
    | none => t
  let t2 := match u.position with
    | some p => { t1 with position := p }
    | none => t1
  let t3 := match u.text with
    | some s => if s.isEmpty then t2 else { t2 with text := s }
    | none => t2
  match u.priority with
  | some s => if s.isEmpty then t3 else { t3 with priority := s }
  | none => t3

/-- `Array.from(entities).find(e => taskId = update.taskId)` then mutation:
    the first matching task is updated, everything else is untouched. -/
def applyUpdateToBoard (board : List TaskRecord) (u : TaskUpdateMsg) : List TaskRecord :=
  match board with
  | [] => []
  | t :: ts =>
      if t.taskId = u.taskId then applyTaskUpdate t u :: ts
      else t :: applyUpdateToBoard ts u

def processNetworkUpdates (board : List TaskRecord) (updates : List TaskUpdateMsg) :
    List TaskRecord :=
  updates.foldl applyUpdateToBoard board

/-- Modelled from the spec's words for comparison: a remote `taskChanged`
    overwrites exactly the fields present in the update. -/
def applyTaskUpdateSpec (t : TaskRecord) (u : TaskUpdateMsg) : TaskRecord :=
  { t with
    column := u.column.getD t.column
    position := u.position.getD t.position
    text := u.text.getD t.text
    priority := u.priority.getD t.priority }

/-! ### Remote comment pipeline (NetworkSystem.onNewComment, TaskBoardSystem.update) -/

structure CommentMsg where
  userId : String
  taskId : String
  text : String
  timestamp : Int
deriving DecidableEq, Repr

/-- `world.globals` queues shared between NetworkSystem and TaskBoardSystem. -/
structure ClientGlobals where
  taskBoardUpdates : List TaskUpdateMsg
  taskComments : List CommentMsg
deriving DecidableEq, Repr

/-- NetworkSystem's `onNewComment` handler pushes into `globals.taskComments`. -/
def onNewComment (g : ClientGlobals) (d : CommentMsg) : ClientGlobals :=
  { g with taskComments := g.taskComments ++ [d] }

/-- NetworkSystem's `onTaskChanged` handler pushes into `globals.taskBoardUpdates`. -/
def onTaskChanged (g : ClientGlobals) (d : TaskUpdateMsg) : ClientGlobals :=
  { g with taskBoardUpdates := g.taskBoardUpdates ++ [d] }

/-- `TaskBoardSystem.update`'s effect on replica state: `processNetworkUpdates`
    applies and clears `taskBoardUpdates`; no code path in the class reads
    `globals.taskComments`, so the comment queue is left as is and no task's
    comment list is touched. -/
def taskBoardUpdateTick (board : List TaskRecord) (g : ClientGlobals) :
    List TaskRecord × ClientGlobals :=
  (processNetworkUpdates board g.taskBoardUpdates, { g with taskBoardUpdates := [] })

/-! ### Presence status derivation (systems/AvatarSystem.ts) -/

def idleTimeoutDefault : ℚ := 30

def awayTimeoutDefault : ℚ := 120

/-- `AvatarSystem.updateActivityStatus`: the new status written to the
    entity, as a function of the timeout configs, the stored
    `lastActivityTime`, the tick `time`, and the current status. -/
def updateActivityStatus (idleTimeout awayTimeout lastActivity time : ℚ)
    (current : String) : String :=
  let timeSince := time - lastActivity
  if awayTimeout < timeSince then "away"
  else if idleTimeout < timeSince then "idle"
  else
    let _ := current
    "active"

/-- Modelled from the spec's words for comparison: active if the last update
    was < 30 s ago, idle if < 120 s, else away. -/
def specPresenceStatus (timeSince : ℚ) : String :=
  if timeSince < 30 then "active"
  else if timeSince < 120 then "idle"
  else "away"

/-! ### Presence replica (NetworkSystem remote avatar handlers) -/

/-- The Avatar + GestureState component data of one remote-avatar entity. -/
structure RemoteAvatarState where
  userId : String
  color : List ℚ
  headPosition : List ℚ
  headRotation : List ℚ
  leftHandPosition : List ℚ
  leftHandRotation : List ℚ
  rightHandPosition : List ℚ
  rightHandRotation : List ℚ
  leftHandGesture : String
  rightHandGesture : String
  swipeDirection : String
  status : String
  lastActivityTime : ℚ
deriving DecidableEq, Repr

/-- A `remote-transform` payload. -/
structure TransformMsg where
  userId : String
  headPosition : List ℚ
  headRotation : List ℚ
  leftHandPosition : List ℚ
  leftHandRotation : List ℚ
  rightHandPosition : List ℚ
  rightHandRotation : List ℚ
deriving DecidableEq, Repr

/-- A `remote-gesture` payload. -/
structure GestureMsg where
  userId : String
  leftHandGesture : String
  rightHandGesture : String
  swipeDirection : String
deriving DecidableEq, Repr

/-- `remoteUsers : Map<string, Entity>` keyed by userId. -/
abbrev Replica := Smap RemoteAvatarState

/-- `createRemoteAvatar`: a fresh entity with the component defaults of
    Avatar.ts / GestureState, the given userId and color. -/
def createRemoteAvatar (m : Replica) (userId : String) (color : List ℚ) : Replica :=
  mapInsert m userId
    { userId := userId
      color := color
      headPosition := [0, mkRat 8 5, 0]
      headRotation := [0, 0, 0, 1]
      leftHandPosition := [0, 0, 0]
      leftHandRotation := [0, 0, 0, 1]
      rightHandPosition := [0, 0, 0]
      rightHandRotation := [0, 0, 0, 1]
      leftHandGesture := "none"
      rightHandGesture := "none"
      swipeDirection := "none"
      status := "active"
      lastActivityTime := 0 }

/-- `NetworkSystem.updateRemoteAvatar`: sets the six transform fields of the
    entity for `data.userId`; nothing else is written. -/
def updateRemoteAvatar (m : Replica) (d : TransformMsg) : Replica :=
  match mapLookup m d.userId with
  | none => m
  | some e =>
      mapInsert m d.userId
        { e with
          headPosition := d.headPosition
          headRotation := d.headRotation
          leftHandPosition := d.leftHandPosition
          leftHandRotation := d.leftHandRotation
          rightHandPosition := d.rightHandPosition
          rightHandRotation := d.rightHandRotation }

/-- `NetworkSystem.updateRemoteGesture`: sets the three gesture fields. -/
def updateRemoteGesture (m : Replica) (d : GestureMsg) : Replica :=
  match mapLookup m d.userId with
  | none => m
  | some e =>
      mapInsert m d.userId
        { e with
          leftHandGesture := d.leftHandGesture
          rightHandGesture := d.rightHandGesture
          swipeDirection := d.swipeDirection }

/-- `NetworkSystem.removeRemoteAvatar`: destroys the entity and deletes the
    map entry. -/
def removeRemoteAvatar (m : Replica) (userId : String) : Replica :=
  mapErase m userId

/-- Modelled from the spec's words for comparison: a `remoteTransform` also
    refreshes the participant's `lastUpdateTime` to the processing time. -/
def updateRemoteAvatarSpec (m : Replica) (d : TransformMsg) (now : ℚ) : Replica :=
  match mapLookup m d.userId with
  | none => m
  | some e =>
      mapInsert m d.userId
        { e with
          headPosition := d.headPosition
          headRotation := d.headRotation
          leftHandPosition := d.leftHandPosition
          leftHandRotation := d.leftHandRotation
          rightHandPosition := d.rightHandPosition
          rightHandRotation := d.rightHandRotation
          lastActivityTime := now }

/-! ### Demo inputs -/

def demoColor : List ℚ := [mkRat 3 10, mkRat 1 2, mkRat 4 5]

def joins4 : List (String × ClientMsg) :=
  [("s1", .joinRoom "r1" "u1" demoColor),
   ("s2", .joinRoom "r1" "u2" demoColor),
   ("s3", .joinRoom "r1" "u3" demoColor),
   ("s4", .joinRoom "r1" "u4" demoColor)]

def st4 : ServerState := (serverRun initServer joins4).1

def joins2 : List (String × ClientMsg) :=
  [("s1", .joinRoom "r1" "u1" demoColor),
   ("s2", .joinRoom "r1" "u2" demoColor)]

def stJoin2 : ServerState := (serverRun initServer joins2).1

def demoTransform : TransformMsg :=
  ⟨"u1", [1, 2, 3], [0, 0, 0, 1], [0, 0, 0], [0, 0, 0, 1], [0, 0, 0], [0, 0, 0, 1]⟩

def demoGesture : GestureMsg := ⟨"u1", "pinch-grab", "none", "left"⟩

/-- The entry `createRemoteAvatar` produces for u1 with `demoColor`. -/
def demoAvatarEntry : RemoteAvatarState :=
  ⟨"u1", demoColor, [0, mkRat 8 5, 0], [0, 0, 0, 1], [0, 0, 0], [0, 0, 0, 1],
   [0, 0, 0], [0, 0, 0, 1], "none", "none", "none", "active", 0⟩

def demoBoard : List TaskRecord :=
  [⟨"task_1", "todo", 0, "Setup project structure", "high", [], ""⟩]

def demoComment : CommentMsg := ⟨"u2", "task_1", "sounds good", 5⟩

/-! ## Lemmas about the map operations -/

theorem mapLookup_insert {α : Type} (m : Smap α) (k k' : String) (v : α) :
    mapLookup (mapInsert m k v) k' = if k = k' then some v else mapLookup m k' := by
  induction m with
  | nil => simp [mapInsert, mapLookup]
  | cons p rest ih =>
    obtain ⟨pk, pv⟩ := p
    by_cases h1 : pk = k
    · subst h1
      by_cases h2 : pk = k' <;> simp [mapInsert, mapLookup, h2]
    · by_cases h2 : pk = k'
      · subst h2
        have : ¬ (k = pk) := fun hc => h1 hc.symm
        simp [mapInsert, mapLookup, h1, this]
      · simp [mapInsert, mapLookup, h1, h2, ih]

theorem mapLookup_erase {α : Type} (m : Smap α) (k k' : String) :
    mapLookup (mapErase m k) k' = if k' = k then none else mapLookup m k' := by
  induction m with
  | nil => simp [mapErase, mapLookup]
  | cons p rest ih =>
    obtain ⟨pk, pv⟩ := p
    by_cases h1 : pk = k
    · subst h1
      rw [show mapErase ((pk, pv) :: rest) pk = mapErase rest pk by simp [mapErase], ih]
      by_cases h2 : k' = pk
      · simp [h2]
      · have hne : ¬ pk = k' := fun hc => h2 hc.symm
        simp [mapLookup, h2, hne]
    · rw [show mapErase ((pk, pv) :: rest) k = (pk, pv) :: mapErase rest k by
        simp [mapErase, h1]]
      by_cases h2 : pk = k'
      · subst h2
        simp [mapLookup, h1]
      · simp [mapLookup, h2, ih]

theorem mapLookup_map_values {α β : Type} (f : α → β) (m : Smap α) (k : String) :
    mapLookup (m.map (fun p => (p.1, f p.2))) k = (mapLookup m k).map f := by
  induction m with
  | nil => simp [mapLookup]
  | cons p rest ih =>
    obtain ⟨pk, pv⟩ := p
    by_cases h : pk = k <;> simp [mapLookup, h, ih]

theorem adapterDisconnect_lookup (a : Smap (List String)) (sid k : String) :
    mapLookup (adapterDisconnect a sid) k
      = (mapLookup a k).map (fun l => l.filter (fun i => i ≠ sid)) := by
  simpa [adapterDisconnect] using
    mapLookup_map_values (fun l => l.filter (fun i => i ≠ sid)) a k

/-! ## Room capacity invariant -/

def RoomsBounded (st : ServerState) : Prop :=
  ∀ r l, mapLookup st.rooms r = some l → l.length ≤ 4

theorem roomsBounded_insert {m : Smap (List String)} {k : String} {v : List String}
    (h : ∀ r l, mapLookup m r = some l → l.length ≤ 4) (hv : v.length ≤ 4) :
    ∀ r l, mapLookup (mapInsert m k v) r = some l → l.length ≤ 4 := by
  intro r l hl
  rw [mapLookup_insert] at hl
  split at hl
  · cases hl; exact hv
  · exact h r l hl

theorem handleDisconnect_eq (st : ServerState) (sid : String) :
    handleDisconnect st sid =
      match mapLookup st.users sid with
      | none => ({ st with adapter := adapterDisconnect st.adapter sid }, [])
      | some u =>
        match mapLookup st.rooms u.roomId with
        | none =>
            (⟨st.rooms, mapErase st.users sid, adapterDisconnect st.adapter sid⟩, [])
        | some room =>
            let room1 := room.filter (fun i => i ≠ sid)
            (⟨if room1 = [] then mapErase st.rooms u.roomId
              else mapInsert st.rooms u.roomId room1,
              mapErase st.users sid, adapterDisconnect st.adapter sid⟩,
             [⟨roomPeers { st with adapter := adapterDisconnect st.adapter sid } u.roomId sid,
               .userLeft u.userId⟩]) := rfl

theorem roomsBounded_step (st : ServerState) (sid : String) (msg : ClientMsg)
    (h : RoomsBounded st) : RoomsBounded (serverStep st sid msg).1 := by
  cases msg with
  | joinRoom roomId userId color =>
    simp only [serverStep, handleJoinRoom]
    set st1 := if (mapLookup st.rooms roomId).isSome then st
               else { st with rooms := mapInsert st.rooms roomId [] } with hst1
    have h1 : RoomsBounded st1 := by
      rw [hst1]; split
      · exact h
      · exact fun r l hl => roomsBounded_insert h (by simp) r l hl
    set room := (mapLookup st1.rooms roomId).getD [] with hroom
    by_cases hfull : 4 ≤ room.length
    · simpa [hfull] using h1
    · have hlt : room.length ≤ 3 := by omega
      have hlen2 : (if sid ∈ room then room else room ++ [sid]).length ≤ 4 := by
        split
        · omega
        · simp; omega
      simp only [hfull, if_false]
      exact fun r l hl => roomsBounded_insert h1 hlen2 r l hl
  | updateTransform p =>
    intro r l hl
    cases hu : mapLookup st.users sid <;> simp only [serverStep, hu] at hl <;>
      exact h r l hl
  | updateGesture p =>
    intro r l hl
    cases hu : mapLookup st.users sid <;> simp only [serverStep, hu] at hl <;>
      exact h r l hl
  | taskUpdate p =>
    intro r l hl
    cases hu : mapLookup st.users sid <;> simp only [serverStep, hu] at hl <;>
      exact h r l hl
  | voiceComment p =>
    intro r l hl
    cases hu : mapLookup st.users sid <;> simp only [serverStep, hu] at hl <;>
      exact h r l hl
  | disconnect =>
    intro r l hl
    rw [show serverStep st sid .disconnect = handleDisconnect st sid from rfl,
        handleDisconnect_eq] at hl
    cases hu : mapLookup st.users sid with
    | none => simp only [hu] at hl; exact h r l hl
    | some u =>
      cases hr : mapLookup st.rooms u.roomId with
      | none => simp only [hu, hr] at hl; exact h r l hl
      | some room =>
        simp only [hu, hr] at hl
        split at hl
        · rw [mapLookup_erase] at hl
          split at hl
          · cases hl
          · exact h r l hl
        · rw [mapLookup_insert] at hl
          split at hl
          · cases hl
            exact le_trans (List.length_filter_le _ _) (h u.roomId room hr)
          · exact h r l hl

theorem serverRun_bounded (evs : List (String × ClientMsg)) :
    ∀ st, RoomsBounded st → RoomsBounded (serverRun st evs).1 := by
  induction evs with
  | nil => intro st h; exact h
  | cons e rest ih =>
    intro st h
    exact ih _ (roomsBounded_step st e.1 e.2 h)

/-- C1: every room ever reachable from the empty server state has at most 4
    members, and a join-room sent to a room that already has 4 members gets
    a room-full reply addressed to the sender only, with the room's member
    set left unchanged. -/
theorem room_capacity :
    (∀ evs r l, mapLookup (serverRun initServer evs).1.rooms r = some l → l.length ≤ 4) ∧
    (∀ st sid roomId userId color l,
       mapLookup st.rooms roomId = some l → l.length = 4 →
       (serverStep st sid (.joinRoom roomId userId color)).2 = [⟨[sid], .roomFull⟩] ∧
       mapLookup (serverStep st sid (.joinRoom roomId userId color)).1.rooms roomId = some l) := by
  constructor
  · intro evs r l hl
    exact serverRun_bounded evs initServer (fun r l h => by simp [initServer, mapLookup] at h) r l hl
  · intro st sid roomId userId color l hm hlen
    have : (4 : ℕ) ≤ l.length := by omega
    constructor <;> simp [serverStep, handleJoinRoom, hm, hlen, this]

/-- Witness for C1: four joins fill room r1; the set has 4 ≤ 4 members and a
    fifth join is answered with room-full. -/
theorem room_capacity_witness :
    (["s1", "s2", "s3", "s4"] : List String).length ≤ 4 ∧
    (serverStep st4 "s5" (.joinRoom "r1" "u5" demoColor)).2 = [⟨["s5"], .roomFull⟩] := by
  constructor
  · exact room_capacity.1 joins4 "r1" ["s1", "s2", "s3", "s4"] (by decide)
  · exact (room_capacity.2 st4 "s5" "r1" "u5" demoColor ["s1", "s2", "s3", "s4"]
      (by decide) (by decide)).1

/-- C10: a join-room rejected because the room already has 4 members is
    atomic: the whole server state (rooms registry, users map, socket.io
    room membership) is exactly as before, and the only emission is
    room-full to the sender — no user-joined or room-joined to anyone. -/
theorem roomFull_rejection_atomic (st : ServerState) (sid roomId userId : String)
    (color : List ℚ) (l : List String)
    (hm : mapLookup st.rooms roomId = some l) (hlen : l.length = 4) :
    serverStep st sid (.joinRoom roomId userId color) = (st, [⟨[sid], .roomFull⟩]) := by
  have : (4 : ℕ) ≤ l.length := by omega
  simp [serverStep, handleJoinRoom, hm, this]

/-- Witness for C10: the rejection of a fifth join leaves the concrete
    4-member server state untouched. -/
theorem roomFull_rejection_atomic_witness :
    serverStep st4 "s5" (.joinRoom "r1" "u5" demoColor) = (st4, [⟨["s5"], .roomFull⟩]) :=
  roomFull_rejection_atomic st4 "s5" "r1" "u5" demoColor ["s1", "s2", "s3", "s4"]
    (by decide) (by decide)

/-! ## Leave / disconnect semantics -/

theorem filter_ne_idem (l : List String) (sid : String) :
    (l.filter (fun i => i ≠ sid)).filter (fun i => i ≠ sid)
      = l.filter (fun i => i ≠ sid) := by
  induction l with
  | nil => rfl
  | cons x rest ih =>
    by_cases h : x = sid <;> simp [List.filter, h, ih]

/-- C2: processing the disconnect of a joined session removes it from its
    room's member set, broadcasts user-left with the user's id to exactly
    the remaining members (so before any room deletion), deletes the room
    from the registry iff the resulting member set is empty, and discards
    the session entry; in particular join(r, u1) then leave(u1) on a fresh
    server leaves room r absent from the registry. -/
theorem leave_semantics :
    (∀ st sid u room, mapLookup st.users sid = some u →
       mapLookup st.rooms u.roomId = some room →
       mapLookup st.adapter u.roomId = some room →
       (serverStep st sid .disconnect).2
           = [⟨room.filter (fun i => i ≠ sid), .userLeft u.userId⟩] ∧
       mapLookup (serverStep st sid .disconnect).1.rooms u.roomId
           = (if room.filter (fun i => i ≠ sid) = [] then none
              else some (room.filter (fun i => i ≠ sid))) ∧
       mapLookup (serverStep st sid .disconnect).1.users sid = none) ∧
    mapLookup (serverRun initServer
        [("s1", ClientMsg.joinRoom "r" "u1" demoColor),
         ("s1", ClientMsg.disconnect)]).1.rooms "r" = none := by
  constructor
  · intro st sid u room hu hr ha
    rw [show serverStep st sid .disconnect = handleDisconnect st sid from rfl,
        handleDisconnect_eq]
    simp only [hu, hr]
    refine ⟨?_, ?_, ?_⟩
    · simp [roomPeers, adapterDisconnect_lookup, ha, filter_ne_idem]
    · split
      · rw [mapLookup_erase]; simp
      · rw [mapLookup_insert]; simp
    · rw [mapLookup_erase]; simp
  · decide

/-- Witness for C2: with u1 and u2 in room r1, u1's disconnect broadcasts
    user-left to u2 only, keeps the non-empty room, and drops u1's session. -/
theorem leave_semantics_witness :
    (serverStep stJoin2 "s1" .disconnect).2 = [⟨["s2"], .userLeft "u1"⟩] ∧
    mapLookup (serverStep stJoin2 "s1" .disconnect).1.rooms "r1" = some ["s2"] ∧
    mapLookup (serverStep stJoin2 "s1" .disconnect).1.users "s1" = none := by
  obtain ⟨h1, h2, h3⟩ :=
    leave_semantics.1 stJoin2 "s1" ⟨"u1", "r1", demoColor⟩ ["s1", "s2"]
      (by decide) (by decide) (by decide)
  exact ⟨by rw [h1]; decide, by rw [h2]; decide, h3⟩

/-! ## Message routing and relay -/

/-- C3: an update-transform / update-gesture / task-update / voice-comment
    from a session that has not joined is ignored (state unchanged, nothing
    emitted); from a joined session it is relayed to the other members of
    the sender's room as remote-transform\x7buserId, ...payload\x7d,
    remote-gesture\x7buserId, ...payload\x7d, task-changed with the payload
    passed through unmodified, and new-comment\x7buserId, ...payload\x7d. -/
theorem relay_routing :
    (∀ st sid p, mapLookup st.users sid = none →
       serverStep st sid (.updateTransform p) = (st, []) ∧
       serverStep st sid (.updateGesture p) = (st, []) ∧
       serverStep st sid (.taskUpdate p) = (st, []) ∧
       serverStep st sid (.voiceComment p) = (st, [])) ∧
    (∀ st sid p u room, mapLookup st.users sid = some u →
       mapLookup st.adapter u.roomId = some room →
       mapLookup st.rooms u.roomId = some room →
       serverStep st sid (.updateTransform p)
         = (st, [⟨room.filter (fun i => i ≠ sid),
                  .remoteTransform (("userId", u.userId) :: p)⟩]) ∧
       serverStep st sid (.updateGesture p)
         = (st, [⟨room.filter (fun i => i ≠ sid),
                  .remoteGesture (("userId", u.userId) :: p)⟩]) ∧
       serverStep st sid (.taskUpdate p)
         = (st, [⟨room.filter (fun i => i ≠ sid), .taskChanged p⟩]) ∧
       serverStep st sid (.voiceComment p)
         = (st, [⟨room.filter (fun i => i ≠ sid),
                  .newComment (("userId", u.userId) :: p)⟩])) := by
  constructor
  · intro st sid p h
    refine ⟨?_, ?_, ?_, ?_⟩ <;> simp [serverStep, h]
  · intro st sid p u room hu ha hr
    refine ⟨?_, ?_, ?_, ?_⟩ <;> simp [serverStep, hu, roomPeers, ha]

/-- Witness for C3: in the two-member room, u1's task-update is relayed to
    s2 as task-changed with the untouched payload, and the same message from
    an unjoined socket is ignored. -/
theorem relay_routing_witness :
    serverStep stJoin2 "s1" (.taskUpdate [("taskId", "t1"), ("column", "done")])
      = (stJoin2, [⟨["s2"], .taskChanged [("taskId", "t1"), ("column", "done")]⟩]) ∧
    serverStep stJoin2 "sX" (.taskUpdate [("taskId", "t1"), ("column", "done")])
      = (stJoin2, []) := by
  constructor
  · have h := (relay_routing.2 stJoin2 "s1" [("taskId", "t1"), ("column", "done")]
      ⟨"u1", "r1", demoColor⟩ ["s1", "s2"] (by decide) (by decide) (by decide)).2.2.1
    rw [h]; decide
  · exact (relay_routing.1 stJoin2 "sX" [("taskId", "t1"), ("column", "done")]
      (by decide)).2.2.1

/-! ## Connection retry exhaustion -/

theorem wsConnectRun_replicate (k : Nat) :
    wsConnectRun (List.replicate k .connectError)
      = ⟨k, if 5 ≤ k then some .connectionError else none⟩ := by
  induction k with
  | zero => decide
  | succ n ih =>
    unfold wsConnectRun at ih ⊢
    rw [List.replicate_succ', List.foldl_append, ih]
    simp only [List.foldl, wsHandleEvent, maxReconnectAttempts]
    by_cases h5 : 5 ≤ n
    · have h6 : 5 ≤ n + 1 := by omega
      simp [h5, h6, settleOnce]
    · by_cases h4 : n = 4
      · subst h4; simp [settleOnce]
      · have h6 : ¬ 5 ≤ n + 1 := by omega
        simp [h5, h6, settleOnce]

/-- Counterexample to C4 as stated: after 5 consecutive connection failures
    the connect promise does reject with ConnectionError, but
    NetworkSystem.connectToServer catches the failure and schedules a whole
    new connection attempt 5000 ms later, so an automatic 6th attempt does
    occur — "no further automatic retry" is false. -/
theorem retry_after_exhaustion_counterexample :
    (wsConnectRun (List.replicate 5 .connectError)).settled = some .connectionError ∧
    connectToServerRetryDelayMs
        (wsConnectRun (List.replicate 5 .connectError)).settled = some 5000 := by
  constructor <;> decide

/-- C4 amended: fewer than 5 consecutive connection failures leave the
    connect promise pending; the 5th failure surfaces ConnectionError to the
    caller, and the socket itself is configured with reconnectionAttempts =
    5 and a fixed 1000 ms delay, but NetworkSystem.connectToServer catches
    the surfaced error and automatically schedules a fresh connection
    attempt after 5000 ms, so retries do continue at the system level. -/
theorem connect_failure_exhaustion (evs : List SocketEvent)
    (h : ∀ e ∈ evs, e = SocketEvent.connectError) :
    (evs.length < 5 → (wsConnectRun evs).settled = none) ∧
    (5 ≤ evs.length → (wsConnectRun evs).settled = some .connectionError ∧
       connectToServerRetryDelayMs (wsConnectRun evs).settled = some 5000) ∧
    wsSocketOptions.reconnectionAttempts = maxReconnectAttempts ∧
    wsSocketOptions.reconnectionDelay = 1000 := by
  have hrep : evs = List.replicate evs.length SocketEvent.connectError :=
    List.eq_replicate_iff.2 ⟨rfl, h⟩
  have hws : wsConnectRun evs
      = ⟨evs.length, if 5 ≤ evs.length then some ConnResult.connectionError else none⟩ := by
    conv_lhs => rw [hrep]
    rw [wsConnectRun_replicate]
  rw [hws]
  refine ⟨?_, ?_, rfl, rfl⟩
  · intro hlt
    have hn : ¬ 5 ≤ evs.length := by omega
    simp [hn]
  · intro hge
    simp [hge, connectToServerRetryDelayMs]

/-- Witness for C4 (amended): 4 failures leave the promise pending; the 5th
    surfaces ConnectionError and a 5000 ms retry is scheduled. -/
theorem connect_failure_exhaustion_witness :
    (wsConnectRun (List.replicate 4 .connectError)).settled = none ∧
    (wsConnectRun (List.replicate 5 .connectError)).settled = some .connectionError := by
  constructor
  · exact (connect_failure_exhaustion (List.replicate 4 .connectError)
      (fun e he => List.eq_of_mem_replicate he)).1 (by decide)
  · exact ((connect_failure_exhaustion (List.replicate 5 .connectError)
      (fun e he => List.eq_of_mem_replicate he)).2.1 (by decide)).1

/-! ## Transform throttling vs per-tick gestures -/

theorem gestureTimes_all_connected {K : Type} [LinearOrderedRing K] (syncRate : K) :
    ∀ (ticks : List (K × Bool)) (s : NetSyncState K), (∀ p ∈ ticks, p.2 = true) →
      gestureTimes syncRate s ticks = ticks.map Prod.fst := by
  intro ticks
  induction ticks with
  | nil => intro s _; rfl
  | cons p rest ih =>
    intro s h
    obtain ⟨t, c⟩ := p
    have hc : c = true := h (t, c) (List.mem_cons_self _ _)
    subst hc
    have hrest : ∀ q ∈ rest, q.2 = true := fun q hq => h q (List.mem_cons_of_mem _ hq)
    by_cases he : syncRate ≤ t - s.lastSyncTime <;>
      simp [gestureTimes, netUpdate, he, ih _ hrest]

theorem transformTimes_chain {K : Type} [LinearOrderedRing K] (syncRate : K) :
    ∀ (ticks : List (K × Bool)) (s : NetSyncState K),
      List.Chain' (fun a b => syncRate ≤ b - a)
        (s.lastSyncTime :: transformTimes syncRate s ticks) := by
  intro ticks
  induction ticks with
  | nil => intro s; simp [transformTimes]
  | cons p rest ih =>
    intro s
    obtain ⟨t, c⟩ := p
    by_cases hc : c = true
    · subst hc
      by_cases he : syncRate ≤ t - s.lastSyncTime
      · rw [transformTimes]
        simp only [netUpdate, if_true, he, if_pos]
        exact List.chain'_cons.2 ⟨he, ih ⟨t⟩⟩
      · rw [transformTimes]
        simp only [netUpdate, if_true, he, if_neg, if_false]
        exact ih s
    · have hc' : c = false := by simp at hc; exact hc
      subst hc'
      rw [transformTimes]
      simp only [netUpdate, if_false, Bool.false_eq_true]
      exact ih s

/-- C5: while connected, a gesture update is emitted on every tick with no
    throttling, while consecutive transform emissions are always at least
    the configured sync interval apart; concretely, 90 ticks at 90 Hz over
    one second (integer clock of 1/180 s units) with the default 50 ms
    interval produce 18 ≈ 20 transform emissions, not 90, while gestures go
    out on all 90 ticks. -/
theorem transform_sync_throttled :
    (∀ (K : Type) [LinearOrderedRing K] (syncRate : K) (s : NetSyncState K)
       (ticks : List (K × Bool)), (∀ p ∈ ticks, p.2 = true) →
       gestureTimes syncRate s ticks = ticks.map Prod.fst ∧
       List.Chain' (fun a b => syncRate ≤ b - a) (transformTimes syncRate s ticks)) ∧
    (transformTimes syncRate180 ⟨0⟩ ticks90).length = 18 ∧
    (gestureTimes syncRate180 ⟨0⟩ ticks90).length = 90 ∧
    defaultSyncRate = mkRat 1 20 := by
  refine ⟨?_, by decide, by decide, rfl⟩
  intro K _instK syncRate s ticks hc
  exact ⟨gestureTimes_all_connected syncRate ticks s hc,
    (transformTimes_chain syncRate ticks s).tail⟩

/-- Witness for C5: the general statement applied to the concrete 90 Hz run. -/
theorem transform_sync_throttled_witness :
    gestureTimes syncRate180 ⟨0⟩ ticks90 = ticks90.map Prod.fst ∧
    List.Chain' (fun a b => syncRate180 ≤ b - a) (transformTimes syncRate180 ⟨0⟩ ticks90) :=
  transform_sync_throttled.1 ℤ syncRate180 ⟨0⟩ ticks90 (by decide)

/-! ## Task board field-by-field overwrite -/

theorem applyTaskUpdate_fields (t : TaskRecord) (u : TaskUpdateMsg) :
    (applyTaskUpdate t u).taskId = t.taskId ∧
    (applyTaskUpdate t u).comments = t.comments ∧
    (applyTaskUpdate t u).assignedTo = t.assignedTo ∧
    (applyTaskUpdate t u).column = (match u.column with
      | some c => if c.isEmpty then t.column else c
      | none => t.column) ∧
    (applyTaskUpdate t u).position = (match u.position with
      | some p => p
      | none => t.position) ∧
    (applyTaskUpdate t u).text = (match u.text with
      | some s => if s.isEmpty then t.text else s
      | none => t.text) ∧
    (applyTaskUpdate t u).priority = (match u.priority with
      | some s => if s.isEmpty then t.priority else s
      | none => t.priority) := by
  obtain ⟨tid, oc, op, ot, opr⟩ := u
  rcases oc with _ | c <;> rcases op with _ | p <;> rcases ot with _ | s <;>
    rcases opr with _ | q <;>
      refine ⟨?_, ?_, ?_, ?_, ?_, ?_, ?_⟩ <;>
        simp only [applyTaskUpdate] <;> split_ifs <;> rfl

theorem applyUpdateToBoard_mem_of_ne (board : List TaskRecord) (u : TaskUpdateMsg)
    (t0 : TaskRecord) (h0 : t0 ∈ board) (hne : t0.taskId ≠ u.taskId) :
    t0 ∈ applyUpdateToBoard board u := by
  induction board with
  | nil => cases h0
  | cons x rest ih =>
    rcases List.mem_cons.1 h0 with h0 | h0
    · subst h0
      simp [applyUpdateToBoard, hne]
    · by_cases hx : x.taskId = u.taskId
      · simpa [applyUpdateToBoard, hx] using Or.inr h0
      · simpa [applyUpdateToBoard, hx] using Or.inr (ih h0)

theorem applyUpdateToBoard_mem (board : List TaskRecord) (u : TaskUpdateMsg)
    (t1 : TaskRecord) (h1 : t1 ∈ applyUpdateToBoard board u) :
    t1 ∈ board ∨ ∃ t0, t0 ∈ board ∧ t0.taskId = u.taskId ∧ t1 = applyTaskUpdate t0 u := by
  induction board with
  | nil => cases h1
  | cons x rest ih =>
    by_cases hx : x.taskId = u.taskId
    · rw [show applyUpdateToBoard (x :: rest) u = applyTaskUpdate x u :: rest by
        simp [applyUpdateToBoard, hx]] at h1
      rcases List.mem_cons.1 h1 with h1 | h1
      · exact Or.inr ⟨x, List.mem_cons_self _ _, hx, h1⟩
      · exact Or.inl (List.mem_cons_of_mem _ h1)
    · rw [show applyUpdateToBoard (x :: rest) u = x :: applyUpdateToBoard rest u by
        simp [applyUpdateToBoard, hx]] at h1
      rcases List.mem_cons.1 h1 with h1 | h1
      · exact Or.inl (by simp [h1])
      · rcases ih h1 with h | ⟨t0, ht0, htid, heq⟩
        · exact Or.inl (List.mem_cons_of_mem _ h)
        · exact Or.inr ⟨t0, List.mem_cons_of_mem _ ht0, htid, heq⟩

/-- Counterexample to C6 as stated: a task-changed update whose text field
    is present but equal to the empty string is NOT applied (the handler
    uses the JS truthiness guard `if (update.text)`), so "overwrites exactly
    the fields present in the update" fails; the spec-worded apply function
    disagrees with the code on this input. -/
theorem taskchanged_truthiness_counterexample :
    applyTaskUpdate ⟨"t1", "todo", 0, "old", "high", [], ""⟩
        ⟨"t1", none, none, some "", none⟩
      = ⟨"t1", "todo", 0, "old", "high", [], ""⟩ ∧
    applyTaskUpdateSpec ⟨"t1", "todo", 0, "old", "high", [], ""⟩
        ⟨"t1", none, none, some "", none⟩
      ≠ ⟨"t1", "todo", 0, "old", "high", [], ""⟩ := by
  constructor <;> decide

/-- C6 amended: a remote task-changed event overwrites, field by field with
    last writer wins, the column / text / priority fields that are present
    with a non-empty value and the position field whenever present (present
    empty-string fields are skipped by the truthiness guard); taskId,
    comments, assignedTo and every other task on the board are unchanged;
    in particular an update t1 ↦ column "done" yields column "done" for the
    next observer. -/
theorem taskchanged_lww (t : TaskRecord) (u : TaskUpdateMsg) (board : List TaskRecord) :
    ((applyTaskUpdate t u).taskId = t.taskId ∧
     (applyTaskUpdate t u).comments = t.comments ∧
     (applyTaskUpdate t u).assignedTo = t.assignedTo) ∧
    (∀ c, u.column = some c → c ≠ "" → (applyTaskUpdate t u).column = c) ∧
    (u.column = none → (applyTaskUpdate t u).column = t.column) ∧
    (∀ p, u.position = some p → (applyTaskUpdate t u).position = p) ∧
    (u.position = none → (applyTaskUpdate t u).position = t.position) ∧
    (∀ s, u.text = some s → s ≠ "" → (applyTaskUpdate t u).text = s) ∧
    (u.text = none → (applyTaskUpdate t u).text = t.text) ∧
    (∀ s, u.priority = some s → s ≠ "" → (applyTaskUpdate t u).priority = s) ∧
    (u.priority = none → (applyTaskUpdate t u).priority = t.priority) ∧
    (∀ t0, t0 ∈ board → t0.taskId ≠ u.taskId → t0 ∈ applyUpdateToBoard board u) ∧
    (∀ t1, t1 ∈ applyUpdateToBoard board u →
       t1 ∈ board ∨ ∃ t0, t0 ∈ board ∧ t0.taskId = u.taskId ∧ t1 = applyTaskUpdate t0 u) ∧
    processNetworkUpdates [⟨"t1", "todo", 0, "Setup", "high", [], ""⟩]
        [⟨"t1", some "done", none, none, none⟩]
      = [⟨"t1", "done", 0, "Setup", "high", [], ""⟩] := by
  obtain ⟨h1, h2, h3, h4, h5, h6, h7⟩ := applyTaskUpdate_fields t u
  refine ⟨⟨h1, h2, h3⟩, ?_, ?_, ?_, ?_, ?_, ?_, ?_, ?_,
    fun t0 ht hne => applyUpdateToBoard_mem_of_ne board u t0 ht hne,
    fun t1 ht => applyUpdateToBoard_mem board u t1 ht, by decide⟩
  · intro c hc hne
    rw [h4, hc]
    simp [String.isEmpty_iff, hne]
  · intro hc; rw [h4, hc]
  · intro p hp; rw [h5, hp]
  · intro hp; rw [h5, hp]
  · intro s hs hne
    rw [h6, hs]
    simp [String.isEmpty_iff, hne]
  · intro hs; rw [h6, hs]
  · intro s hs hne
    rw [h7, hs]
    simp [String.isEmpty_iff, hne]
  · intro hs; rw [h7, hs]

/-- Witness for C6 (amended): a concrete update with column "done" and
    position 2 overwrites exactly those fields and keeps the comments. -/
theorem taskchanged_lww_witness :
    (applyTaskUpdate ⟨"t1", "todo", 0, "Setup", "high", [], ""⟩
        ⟨"t1", some "done", some 2, none, none⟩).column = "done" ∧
    (applyTaskUpdate ⟨"t1", "todo", 0, "Setup", "high", [], ""⟩
        ⟨"t1", some "done", some 2, none, none⟩).position = 2 ∧
    (applyTaskUpdate ⟨"t1", "todo", 0, "Setup", "high", [], ""⟩
        ⟨"t1", some "done", some 2, none, none⟩).comments = [] := by
  obtain ⟨⟨_, hb, _⟩, h4, _, h6, _⟩ :=
    taskchanged_lww ⟨"t1", "todo", 0, "Setup", "high", [], ""⟩
      ⟨"t1", some "done", some 2, none, none⟩ []
  exact ⟨h4 "done" rfl (by decide), h6 2 rfl, hb⟩

/-! ## Presence status thresholds -/

/-- Counterexample to C7 as stated: at exactly 30 s since the last update
    the code still reports "active" (it uses strict `>` against the
    timeouts), while the claim's "< 30 ⇒ active, < 120 ⇒ idle" assigns
    "idle" to 30 s. -/
theorem presence_threshold_counterexample :
    updateActivityStatus idleTimeoutDefault awayTimeoutDefault 0 30 "active" = "active" ∧
    specPresenceStatus 30 = "idle" := by
  constructor
  · norm_num [updateActivityStatus, idleTimeoutDefault, awayTimeoutDefault]
  · norm_num [specPresenceStatus]

/-- C7 amended: the derived status is a pure function of the time since the
    last update with inclusive thresholds on the active/idle side: "active"
    when it is ≤ 30 s, "idle" when it is > 30 s and ≤ 120 s, "away" when it
    is > 120 s; the result never depends on the current status, so it flips
    on the first tick strictly past a threshold with no hysteresis. -/
theorem presence_status_thresholds (lastActivity time : ℚ) (cur cur' : String) :
    (updateActivityStatus idleTimeoutDefault awayTimeoutDefault lastActivity time cur
      = updateActivityStatus idleTimeoutDefault awayTimeoutDefault lastActivity time cur') ∧
    (time - lastActivity ≤ 30 →
      updateActivityStatus idleTimeoutDefault awayTimeoutDefault lastActivity time cur
        = "active") ∧
    (30 < time - lastActivity → time - lastActivity ≤ 120 →
      updateActivityStatus idleTimeoutDefault awayTimeoutDefault lastActivity time cur
        = "idle") ∧
    (120 < time - lastActivity →
      updateActivityStatus idleTimeoutDefault awayTimeoutDefault lastActivity time cur
        = "away") := by
  refine ⟨rfl, ?_, ?_, ?_⟩
  · intro h
    simp only [updateActivityStatus, idleTimeoutDefault, awayTimeoutDefault]
    rw [if_neg (by linarith), if_neg (by linarith)]
  · intro h1 h2
    simp only [updateActivityStatus, idleTimeoutDefault, awayTimeoutDefault]
    rw [if_neg (by linarith), if_pos (by linarith)]
  · intro h
    simp only [updateActivityStatus, idleTimeoutDefault, awayTimeoutDefault]
    rw [if_pos (by linarith)]

/-- Witness for C7 (amended): 30 s is still active, 31 s is idle, 121 s is
    away, whatever the previous status was. -/
theorem presence_status_thresholds_witness :
    updateActivityStatus idleTimeoutDefault awayTimeoutDefault 0 30 "idle" = "active" ∧
    updateActivityStatus idleTimeoutDefault awayTimeoutDefault 0 31 "active" = "idle" ∧
    updateActivityStatus idleTimeoutDefault awayTimeoutDefault 0 121 "idle" = "away" :=
  ⟨(presence_status_thresholds 0 30 "idle" "x").2.1 (by norm_num),
   (presence_status_thresholds 0 31 "active" "x").2.2.1 (by norm_num) (by norm_num),
   (presence_status_thresholds 0 121 "idle" "x").2.2.2 (by norm_num)⟩

/-! ## Presence replica events -/

/-- Counterexample to C8 as stated: processing a remote-transform for u1
    does update the transform fields (headPosition becomes the payload's),
    but leaves lastActivityTime at its old value 0 no matter when the event
    is processed — the handler never refreshes any last-update timestamp
    for remote participants, unlike the spec-worded handler which stamps
    the processing time (here 50). -/
theorem remote_update_no_refresh_counterexample :
    (mapLookup (updateRemoteAvatar (createRemoteAvatar [] "u1" demoColor) demoTransform)
        "u1").map RemoteAvatarState.lastActivityTime = some 0 ∧
    (mapLookup (updateRemoteAvatarSpec (createRemoteAvatar [] "u1" demoColor) demoTransform 50)
        "u1").map RemoteAvatarState.lastActivityTime = some 50 ∧
    (mapLookup (updateRemoteAvatar (createRemoteAvatar [] "u1" demoColor) demoTransform)
        "u1").map RemoteAvatarState.headPosition = some [1, 2, 3] := by
  refine ⟨?_, ?_, ?_⟩ <;> decide

/-- C8 amended: for a tracked remote participant, a remoteTransform event
    overwrites exactly the six transform fields and a remoteGesture event
    exactly the three gesture fields, in both cases leaving
    lastActivityTime (and all other fields and participants) unchanged —
    the code does not refresh a last-update time for remote participants;
    a single userLeft event removes the entry, so the replica no longer
    contains that user. -/
theorem updateRemoteAvatar_eq (m : Replica) (d : TransformMsg) (e : RemoteAvatarState)
    (hd : mapLookup m d.userId = some e) :
    updateRemoteAvatar m d = mapInsert m d.userId
      { e with
        headPosition := d.headPosition
        headRotation := d.headRotation
        leftHandPosition := d.leftHandPosition
        leftHandRotation := d.leftHandRotation
        rightHandPosition := d.rightHandPosition
        rightHandRotation := d.rightHandRotation } := by
  unfold updateRemoteAvatar
  rw [hd]

theorem updateRemoteGesture_eq (m : Replica) (g : GestureMsg) (e' : RemoteAvatarState)
    (hg : mapLookup m g.userId = some e') :
    updateRemoteGesture m g = mapInsert m g.userId
      { e' with
        leftHandGesture := g.leftHandGesture
        rightHandGesture := g.rightHandGesture
        swipeDirection := g.swipeDirection } := by
  unfold updateRemoteGesture
  rw [hg]

theorem presence_replica_events (m : Replica) (d : TransformMsg) (g : GestureMsg)
    (e e' : RemoteAvatarState) (hd : mapLookup m d.userId = some e)
    (hg : mapLookup m g.userId = some e') :
    mapLookup (updateRemoteAvatar m d) d.userId
      = some { e with
          headPosition := d.headPosition
          headRotation := d.headRotation
          leftHandPosition := d.leftHandPosition
          leftHandRotation := d.leftHandRotation
          rightHandPosition := d.rightHandPosition
          rightHandRotation := d.rightHandRotation } ∧
    (mapLookup (updateRemoteAvatar m d) d.userId).map RemoteAvatarState.lastActivityTime
      = some e.lastActivityTime ∧
    (∀ k, k ≠ d.userId → mapLookup (updateRemoteAvatar m d) k = mapLookup m k) ∧
    mapLookup (updateRemoteGesture m g) g.userId
      = some { e' with
          leftHandGesture := g.leftHandGesture
          rightHandGesture := g.rightHandGesture
          swipeDirection := g.swipeDirection } ∧
    (∀ k, k ≠ g.userId → mapLookup (updateRemoteGesture m g) k = mapLookup m k) ∧
    (∀ u, mapLookup (removeRemoteAvatar m u) u = none) := by
  have hu : mapLookup (updateRemoteAvatar m d) d.userId
      = some { e with
          headPosition := d.headPosition
          headRotation := d.headRotation
          leftHandPosition := d.leftHandPosition
          leftHandRotation := d.leftHandRotation
          rightHandPosition := d.rightHandPosition
          rightHandRotation := d.rightHandRotation } := by
    rw [updateRemoteAvatar_eq m d e hd, mapLookup_insert]
    simp
  refine ⟨hu, by rw [hu]; rfl, ?_, ?_, ?_, ?_⟩
  · intro k hk
    rw [updateRemoteAvatar_eq m d e hd, mapLookup_insert]
    exact if_neg fun hc => hk hc.symm
  · rw [updateRemoteGesture_eq m g e' hg, mapLookup_insert]
    simp
  · intro k hk
    rw [updateRemoteGesture_eq m g e' hg, mapLookup_insert]
    exact if_neg fun hc => hk hc.symm
  · intro u
    rw [removeRemoteAvatar, mapLookup_erase]
    simp

/-- Witness for C8 (amended): concrete replica holding u1; the gesture event
    lands in the gesture fields and user-left removes u1. -/
theorem presence_replica_events_witness :
    (mapLookup (updateRemoteGesture (createRemoteAvatar [] "u1" demoColor) demoGesture)
        "u1").map RemoteAvatarState.leftHandGesture = some "pinch-grab" ∧
    mapLookup (removeRemoteAvatar (createRemoteAvatar [] "u1" demoColor) "u1") "u1"
      = none := by
  obtain ⟨_, _, _, hg, _, hrm⟩ :=
    presence_replica_events (createRemoteAvatar [] "u1" demoColor) demoTransform
      demoGesture demoAvatarEntry demoAvatarEntry (by decide) (by decide)
  refine ⟨?_, hrm "u1"⟩
  rw [show demoGesture.userId = "u1" from rfl] at hg
  rw [hg]
  rfl

/-! ## Remote comment pipeline -/

/-- C9 on the code as written: a received new-comment event is pushed onto
    globals.taskComments by NetworkSystem.onNewComment, but
    TaskBoardSystem.update never reads that queue, so the event changes no
    task — even one present on the board keeps its comment list, and the
    event is never consumed; the demo run shows task_1's comments stay []. -/
theorem newComment_never_applied (board : List TaskRecord) (g : ClientGlobals)
    (d : CommentMsg) :
    taskBoardUpdateTick board (onNewComment g d)
      = (processNetworkUpdates board g.taskBoardUpdates,
         ⟨[], g.taskComments ++ [d]⟩) ∧
    (g.taskBoardUpdates = [] → (taskBoardUpdateTick board (onNewComment g d)).1 = board) ∧
    ((taskBoardUpdateTick demoBoard (onNewComment ⟨[], []⟩ demoComment)).1.map
        TaskRecord.comments) = [[]] ∧
    (taskBoardUpdateTick demoBoard (onNewComment ⟨[], []⟩ demoComment)).2.taskComments
      = [demoComment] := by
  refine ⟨rfl, ?_, by decide, by decide⟩
  intro h
  simp [taskBoardUpdateTick, onNewComment, h, processNetworkUpdates]

/-- Witness for C9's theorem: with an empty update queue the board is
    returned untouched after the comment event. -/
theorem newComment_never_applied_witness :
    (taskBoardUpdateTick demoBoard (onNewComment ⟨[], []⟩ demoComment)).1 = demoBoard :=
  (newComment_never_applied demoBoard ⟨[], []⟩ demoComment).2.1 rfl

end CoSpace
